import Mathlib

/-!
# Verification of `libimage` image search (`src/libimage/search.go`)

A shallow embedding of the multi-registry image-search engine:
the term parser, the limit policy, the result filter and formatter,
the tag-listing mode, the dispatcher's outcome aggregation with its
optimistic success policy, the slot-array write discipline, and the
bounded-concurrency permit semantics.

Go strings are modelled as `List Char`; Go `int` as `Int`; a Go `error`
as `Option GoString` (`none` = nil); the external collaborators
(registry client, reference parser) as abstract capability records, as
the specification's §6 describes them.
-/

namespace LibImage

/-- Go strings, modelled as lists of characters. -/
abbrev GoString := List Char

/-- `const searchTruncLength = 44` (search.go:20). -/
def searchTruncLength : Nat := 44

/-- `const searchMaxQueries = 25` (search.go:21). -/
def searchMaxQueries : Int := 25

/-- `const searchMaxParallel = int64(6)` (search.go:24). -/
def searchMaxParallel : Int := 6

/-- `types.OptionalBool` from containers/image: a tri-state boolean. -/
inductive OptionalBool
  | OptionalBoolUndefined
  | OptionalBoolTrue
  | OptionalBoolFalse
deriving DecidableEq, Repr

export OptionalBool (OptionalBoolUndefined OptionalBoolTrue OptionalBoolFalse)

/-- `SearchResult` (search.go:28-43): image-search related data. -/
structure SearchResult where
  Index : GoString
  Name : GoString
  Description : GoString
  Stars : Int
  Official : GoString
  Automated : GoString
  Tag : GoString
deriving DecidableEq, Repr

/-- `SearchFilter` (search.go:63-70). -/
structure SearchFilter where
  Stars : Int
  IsAutomated : OptionalBool
  IsOfficial : OptionalBool
deriving DecidableEq, Repr

/-- `SearchOptions` (search.go:46-60). -/
structure SearchOptions where
  Filter : SearchFilter
  Limit : Int
  NoTrunc : Bool
  Authfile : GoString
  InsecureSkipTLSVerify : OptionalBool
  ListTags : Bool
deriving DecidableEq, Repr

/-- `dockerTransport.SearchResult`: a raw hit returned by the external
registry client (the fields search.go reads). -/
structure RawSearchResult where
  Name : GoString
  Description : GoString
  StarCount : Int
  IsAutomated : Bool
  IsOfficial : Bool
deriving DecidableEq, Repr

/-! ## Result filter (search.go:248-264) -/

/-- `matchesStarFilter` (search.go:248-250). -/
def matchesStarFilter (f : SearchFilter) (result : RawSearchResult) : Bool :=
  decide (f.Stars ≤ result.StarCount)

/-- `matchesAutomatedFilter` (search.go:252-257). -/
def matchesAutomatedFilter (f : SearchFilter) (result : RawSearchResult) : Bool :=
  if f.IsAutomated ≠ OptionalBoolUndefined then
    result.IsAutomated == (f.IsAutomated == OptionalBoolTrue)
  else
    true

/-- `matchesOfficialFilter` (search.go:259-264). -/
def matchesOfficialFilter (f : SearchFilter) (result : RawSearchResult) : Bool :=
  if f.IsOfficial ≠ OptionalBoolUndefined then
    result.IsOfficial == (f.IsOfficial == OptionalBoolTrue)
  else
    true

/-! ## Limit policy -/

/-- The retained-count computation of `searchImageInRegistry`
(search.go:166-175): start from the ceiling of 25, lower it to the raw
count, and when `options.Limit != 0` recompute as the smaller of
`options.Limit` and the raw count. -/
def searchRetainLimit (optionsLimit : Int) (rawLen : Nat) : Int :=
  let limit : Int := searchMaxQueries
  let limit : Int := if (rawLen : Int) < limit then (rawLen : Int) else limit
  let limit : Int :=
    if optionsLimit ≠ 0 then
      if optionsLimit < (rawLen : Int) then optionsLimit else (rawLen : Int)
    else limit
  limit

/-- The retained-count computation of `searchRepositoryTags`
(search.go:227-236); textually duplicated in the source, identical in
effect. -/
def tagsRetainLimit (optionsLimit : Int) (rawLen : Nat) : Int :=
  let limit : Int := searchMaxQueries
  let limit : Int := if (rawLen : Int) < limit then (rawLen : Int) else limit
  let limit : Int :=
    if optionsLimit ≠ 0 then
      let l : Int := (rawLen : Int)
      if optionsLimit < l then optionsLimit else l
    else limit
  limit

/-! ## Result formatter (search.go:157-207) -/

/-- Index shortening (search.go:157-161): keep only the last two
dot-separated labels when there are more than two. -/
def shortenIndex (registry : GoString) : GoString :=
  let arr := registry.splitOn '.'
  if arr.length > 2 then List.intercalate ['.'] (arr.drop (arr.length - 2))
  else registry

/-- `strings.ReplaceAll(description, "\n", " ")` (search.go:191): every
newline becomes a space. -/
def replaceNewlines (s : GoString) : GoString :=
  s.map (fun c => if c = '\n' then ' ' else c)

/-- The loop body of search.go:183-206 shaping one raw hit into a
`SearchResult` (official/automated markers, newline replacement,
truncation, Docker Hub name rewrite). -/
def formatSearchResult (options : SearchOptions) (registry index : GoString)
    (r : RawSearchResult) : SearchResult :=
  let official : GoString := if r.IsOfficial then "[OK]".toList else []
  let automated : GoString := if r.IsAutomated then "[OK]".toList else []
  let description : GoString := replaceNewlines r.Description
  let description : GoString :=
    if 44 < description.length ∧ options.NoTrunc = false then
      description.take searchTruncLength ++ "...".toList
    else description
  let name : GoString := registry ++ ['/'] ++ r.Name
  let name : GoString :=
    if index = "docker.io".toList ∧ r.Name.contains '/' = false then
      index ++ "/library/".toList ++ r.Name
    else name
  { Index := index
    Name := name
    Description := description
    Official := official
    Automated := automated
    Stars := r.StarCount
    Tag := [] }

/-- The hits kept by the limit policy before filtering: the loop
`for i := 0; i < limit; i++` over `results` (search.go:178). -/
def retainedHits (options : SearchOptions) (results : List RawSearchResult) :
    List RawSearchResult :=
  results.take (searchRetainLimit options.Limit results.length).toNat

/-- The post-query processing of `searchImageInRegistry`
(search.go:157-209): index shortening, limit policy, filter, formatter. -/
def processSearchResults (options : SearchOptions) (registry : GoString)
    (results : List RawSearchResult) : List SearchResult :=
  let index := shortenIndex registry
  (retainedHits options results).foldl
    (fun paramsArr r =>
      if (matchesAutomatedFilter options.Filter r
            && matchesOfficialFilter options.Filter r
            && matchesStarFilter options.Filter r) = true then
        paramsArr ++ [formatSearchResult options registry index r]
      else paramsArr)
    []

/-! ## Tag-listing mode (search.go:212-246)

The reference parser and tag client are external collaborator
capabilities (spec §6), modelled as an abstract record. -/

/-- An image reference as search.go uses it: its transport name and the
name of its docker reference. -/
structure ImageReference where
  transportName : GoString
  dockerReferenceName : GoString
deriving DecidableEq, Repr

/-- The external collaborators of `searchRepositoryTags`:
`alltransports.ParseImageName` and `dockerTransport.GetRepositoryTags`.
A `.error` value models a non-nil Go error with that message. -/
structure TagClient where
  parseImageName : GoString → Except GoString ImageReference
  getRepositoryTags : ImageReference → Except GoString (List GoString)

/-- `dockerTransport.Transport.Name()`. -/
def dockerTransportName : GoString := "docker".toList

/-- `errors.Errorf("reference %q must be a docker reference", term)`. -/
def mustBeDockerErr (term : GoString) : GoString :=
  "reference \"".toList ++ term ++ "\" must be a docker reference".toList

/-- `errors.Errorf("error getting repository tags: %v", err)`. -/
def tagRetrievalErr (e : GoString) : GoString :=
  "error getting repository tags: ".toList ++ e

/-- The reference-resolution prelude of `searchRepositoryTags`
(search.go:213-222): parse `registry/term`; reject a successful parse
whose transport is not the docker transport; on a parse failure retry
with the `docker://` prefix before rejecting. -/
def resolveTagReference (client : TagClient) (registry term : GoString) :
    Except GoString ImageReference :=
  let dockerPrefix : GoString := "docker://".toList
  match client.parseImageName (registry ++ ['/'] ++ term) with
  | .ok imageRef =>
      if imageRef.transportName ≠ dockerTransportName then
        .error (mustBeDockerErr term)
      else .ok imageRef
  | .error _ =>
      match client.parseImageName (dockerPrefix ++ (registry ++ ['/'] ++ term)) with
      | .ok imageRef => .ok imageRef
      | .error _ => .error (mustBeDockerErr term)

/-- `searchRepositoryTags` (search.go:212-246). -/
def searchRepositoryTags (client : TagClient) (registry term : GoString)
    (options : SearchOptions) : Except GoString (List SearchResult) :=
  match resolveTagReference client registry term with
  | .error e => .error e
  | .ok imageRef =>
      match client.getRepositoryTags imageRef with
      | .error e => .error (tagRetrievalErr e)
      | .ok tags =>
          let retained := tags.take (tagsRetainLimit options.Limit tags.length).toNat
          .ok (retained.map (fun tag =>
            { Index := []
              Name := imageRef.dockerReferenceName
              Description := []
              Stars := 0
              Official := []
              Automated := []
              Tag := tag }))

/-! ## Term parser (search.go:85-88) -/

/-- `strings.SplitN(term, "/", 2)` for the single-character separator. -/
def goSplitN2 (sep : Char) (s : GoString) : List GoString :=
  let pre := s.takeWhile (fun c => c ≠ sep)
  if pre.length = s.length then [s]
  else [pre, s.drop (pre.length + 1)]

/-- search.go:85-88: when the term contains a `/`, append everything
before the first `/` to the registry list and keep the remainder as the
term. -/
def parseTermRegistry (searchRegistries : List GoString) (term : GoString) :
    List GoString × GoString :=
  match goSplitN2 '/' term with
  | [] => (searchRegistries, term)
  | [_] => (searchRegistries, term)
  | spl0 :: spl1 :: _ => (searchRegistries ++ [spl0], spl1)

/-! ## Dispatcher outcome aggregation (search.go:90-131) -/

/-- `searchOutputData` (search.go:91-94): one registry's outcome. -/
structure searchOutputData where
  data : List SearchResult
  err : Option GoString
deriving DecidableEq, Repr

/-- The zero value a fresh slot of `make([]searchOutputData, n)` holds. -/
def emptyOutput : searchOutputData := { data := [], err := none }

/-- The collection loop of search.go:115-123: concatenate successful
outcomes, `multierror.Append` the failures (`none` models a nil error,
`some es` the multi-error holding causes `es`). -/
def collectOutcomes (data : List searchOutputData) :
    List SearchResult × Option (List GoString) :=
  data.foldl
    (fun acc d =>
      match d.err with
      | some e => (acc.1, some (acc.2.getD [] ++ [e]))
      | none => (acc.1 ++ d.data, acc.2))
    ([], none)

/-- search.go:114-131: the aggregation after `wg.Wait()`, with the
optimistic success policy of lines 125-130. -/
def searchAggregate (data : List searchOutputData) :
    List SearchResult × Option (List GoString) :=
  let collected := collectOutcomes data
  if collected.1.length > 0 then (collected.1, none)
  else (collected.1, collected.2)

/-- The concatenation of the successful outcomes' results in slot order
(specification shape for the collection loop). -/
def successResults : List searchOutputData → List SearchResult
  | [] => []
  | d :: rest =>
      match d.err with
      | some _ => successResults rest
      | none => d.data ++ successResults rest

/-- The failures in slot order (specification shape). -/
def failures (data : List searchOutputData) : List GoString :=
  data.filterMap (fun d => d.err)

/-! ## The dispatch loop (search.go:96-112)

Pulled apart into the cancellable permit-acquisition sequence and the
slot writes. `acq i` is the outcome of `sem.Acquire(ctx, 1)` before
launching registry `i`'s task (`some e`: the context was cancelled and
`Acquire` returned error `e`); `task i` is the outcome registry `i`'s
goroutine would write into slot `i`. -/

/-- The first `sem.Acquire` failure the loop hits, scanning indices in
loop order; the loop returns early there (search.go:102-104). -/
def firstAcquireErr (acq : Nat → Option GoString) : List Nat → Option GoString
  | [] => none
  | i :: rest =>
      match acq i with
      | some e => some e
      | none => firstAcquireErr acq rest

/-- A `Search` error: either the permit-acquisition (cancellation) error
returned at search.go:103, or the aggregated multi-error of
search.go:130. -/
inductive SearchError
  | acquireErr (e : GoString)
  | multiErr (es : List GoString)
deriving DecidableEq, Repr

/-- The dispatch-and-aggregate core of `Search` (search.go:96-131) for a
resolved registry list of length `n`: if any permit acquisition fails the
call returns `(nil, err)` at once; otherwise every slot `i` holds
`task i` after the join and the aggregation of lines 114-131 runs. -/
def SearchModel (acq : Nat → Option GoString) (task : Nat → searchOutputData)
    (n : Nat) : List SearchResult × Option SearchError :=
  match firstAcquireErr acq (List.range n) with
  | some e => ([], some (.acquireErr e))
  | none =>
      let data := (List.range n).map task
      let aggregated := searchAggregate data
      (aggregated.1, aggregated.2.map SearchError.multiErr)

/-- The concurrent slot writes: each completing task `i` executes
`data[index] = searchOutputData{...}` (search.go:110); `order` is the
sequence in which tasks complete. -/
def writeSlots (task : Nat → searchOutputData) (order : List Nat)
    (init : List searchOutputData) : List searchOutputData :=
  order.foldl (fun arr i => arr.set i (task i)) init

/-! ## The permit pool (search.go:96-111)

`semaphore.NewWeighted(searchMaxParallel)` with weight-1 acquisitions is
a counting semaphore: `Acquire` suspends while `searchMaxParallel`
permits are held, `Release` returns a held permit. A run of the
dispatcher is abstracted as the trace of acquire/release events its
tasks perform; a trace is a list with the newest event first, so the
moments in time of a run are exactly the suffixes of its trace. -/

/-- One permit-pool event: a task acquiring its permit just before
launch (search.go:102), or releasing it on completion (search.go:107). -/
inductive SemOp
  | acquire
  | release
deriving DecidableEq, Repr

/-- The number of permits held after a trace: acquisitions minus
releases (each in-flight task holds exactly one permit). -/
def inFlight : List SemOp → Nat
  | [] => 0
  | SemOp.acquire :: rest => inFlight rest + 1
  | SemOp.release :: rest => inFlight rest - 1

/-- The traces the weighted semaphore can generate: an acquire completes
only while fewer than `searchMaxParallel` permits are held, and only a
held permit is released. -/
inductive ValidTrace : List SemOp → Prop
  | nil : ValidTrace []
  | acquire (t : List SemOp) : ValidTrace t →
      inFlight t < searchMaxParallel.toNat → ValidTrace (SemOp.acquire :: t)
  | release (t : List SemOp) : ValidTrace t →
      0 < inFlight t → ValidTrace (SemOp.release :: t)

/-! ## Helper lemmas -/

theorem takeWhile_ne_eq_self {sep : Char} {s : GoString} (h : sep ∉ s) :
    s.takeWhile (fun c => c ≠ sep) = s := by
  induction s with
  | nil => rfl
  | cons c rest ih =>
      simp only [List.mem_cons, not_or] at h
      rw [List.takeWhile_cons, if_pos (decide_eq_true (Ne.symm h.1)), ih h.2]

theorem takeWhile_ne_length_lt {sep : Char} {s : GoString} (h : sep ∈ s) :
    (s.takeWhile (fun c => c ≠ sep)).length < s.length := by
  induction s with
  | nil => cases h
  | cons c rest ih =>
      by_cases hc : c = sep
      · subst hc
        simp [List.takeWhile_cons]
      · rcases List.mem_cons.mp h with h1 | h2
        · exact absurd h1.symm hc
        · rw [List.takeWhile_cons, if_pos (decide_eq_true hc), List.length_cons,
            List.length_cons]
          exact Nat.succ_lt_succ (ih h2)

theorem goSplitN2_eq (sep : Char) (s : GoString) :
    goSplitN2 sep s =
      if sep ∈ s then
        [s.takeWhile (fun c => c ≠ sep), (s.dropWhile (fun c => c ≠ sep)).tail]
      else [s] := by
  by_cases h : sep ∈ s
  · have hlt := takeWhile_ne_length_lt h
    have hdw := List.drop_left (s.takeWhile (fun c => c ≠ sep))
      (s.dropWhile (fun c => c ≠ sep))
    rw [List.takeWhile_append_dropWhile] at hdw
    simp only [goSplitN2]
    rw [if_neg (Nat.ne_of_lt hlt), if_pos h, ← List.tail_drop, hdw]
  · have heq := takeWhile_ne_eq_self h
    simp only [goSplitN2]
    rw [if_pos (by rw [heq]), if_neg h]

/-! ## C3: limit policy -/

theorem searchRetainLimit_toNat (L : Int) (raw : Nat) (hL : 0 ≤ L) :
    (searchRetainLimit L raw).toNat =
      if 0 < L then min L.toNat raw else min 25 raw := by
  simp only [searchRetainLimit, searchMaxQueries]
  split_ifs <;> omega

theorem tagsRetainLimit_toNat (L : Int) (raw : Nat) (hL : 0 ≤ L) :
    (tagsRetainLimit L raw).toNat =
      if 0 < L then min L.toNat raw else min 25 raw := by
  simp only [tagsRetainLimit, searchMaxQueries]
  split_ifs <;> omega

/-- **C3.** The number of raw items retained by the limit policy, in
repository-search mode and in tag-listing mode alike, is
`min (Limit, raw count)` when the caller supplied an explicit positive
`Limit` and `min (25, raw count)` when it did not. -/
theorem retained_count_eq_min (options : SearchOptions)
    (results : List RawSearchResult) (tags : List GoString)
    (hL : 0 ≤ options.Limit) :
    ((retainedHits options results).length =
      if 0 < options.Limit then min options.Limit.toNat results.length
      else min 25 results.length)
    ∧ ((tags.take (tagsRetainLimit options.Limit tags.length).toNat).length =
      if 0 < options.Limit then min options.Limit.toNat tags.length
      else min 25 tags.length) := by
  constructor
  · rw [retainedHits, List.length_take, searchRetainLimit_toNat _ _ hL]
    split_ifs <;> omega
  · rw [List.length_take, tagsRetainLimit_toNat _ _ hL]
    split_ifs <;> omega

/-- Witness for C3 at the spec's four sample points: raw 10 with
`Limit=0` retains 10, raw 30 with `Limit=0` retains 25, raw 30 with
`Limit=5` retains 5, raw 3 with `Limit=5` retains 3. -/
theorem retained_count_eq_min_witness :
    (0:Int) ≤ 0 ∧ (0:Int) ≤ 5
    ∧ (searchRetainLimit 0 10).toNat = 10
    ∧ (searchRetainLimit 0 30).toNat = 25
    ∧ (searchRetainLimit 5 30).toNat = 5
    ∧ (searchRetainLimit 5 3).toNat = 3
    ∧ ((retainedHits
          { Filter := ⟨0, OptionalBoolUndefined, OptionalBoolUndefined⟩,
            Limit := 5, NoTrunc := false, Authfile := [],
            InsecureSkipTLSVerify := OptionalBoolUndefined, ListTags := false }
          (List.replicate 30 ⟨[], [], 0, false, false⟩)).length =
        if 0 < (5:Int) then min (Int.toNat 5) 30 else min 25 30) := by
  refine ⟨by decide, by decide, by decide, by decide, by decide, by decide, ?_⟩
  exact (retained_count_eq_min _ (List.replicate 30 ⟨[], [], 0, false, false⟩) []
    (by decide)).1

/-! ## C4: term parser -/

/-- **C4.** A term containing `/` appends the part before the first `/`
to the registry list and keeps the remainder as the effective term (the
returned pair is what `Search` then uses for all registries); a term
without `/` leaves both unchanged. -/
theorem term_parser_split (searchRegistries : List GoString) (term : GoString) :
    ('/' ∈ term →
      parseTermRegistry searchRegistries term =
        (searchRegistries ++ [term.takeWhile (fun c => c ≠ '/')],
         (term.dropWhile (fun c => c ≠ '/')).tail))
    ∧ ('/' ∉ term → parseTermRegistry searchRegistries term = (searchRegistries, term)) := by
  constructor <;> intro h
  · simp only [parseTermRegistry, goSplitN2_eq, if_pos h]
  · simp only [parseTermRegistry, goSplitN2_eq, if_neg h]

/-! ## C5: description truncation -/

/-- **C5.** The formatted description first has every newline replaced
by a space; when the result exceeds 44 characters and `NoTrunc` is
false it is cut to its first 44 characters with a literal `"..."`
appended — 47 characters ending in `"..."` — and with `NoTrunc` true the
newline-replaced description is kept at full length. -/
theorem description_truncation (options : SearchOptions)
    (registry index : GoString) (r : RawSearchResult) :
    ((formatSearchResult options registry index r).Description =
      if 44 < (replaceNewlines r.Description).length ∧ options.NoTrunc = false then
        (replaceNewlines r.Description).take 44 ++ "...".toList
      else replaceNewlines r.Description)
    ∧ (44 < (replaceNewlines r.Description).length → options.NoTrunc = false →
        (formatSearchResult options registry index r).Description.length = 47
        ∧ "...".toList <:+ (formatSearchResult options registry index r).Description)
    ∧ (options.NoTrunc = true →
        (formatSearchResult options registry index r).Description =
          replaceNewlines r.Description) := by
  have hdesc : (formatSearchResult options registry index r).Description =
      if 44 < (replaceNewlines r.Description).length ∧ options.NoTrunc = false then
        (replaceNewlines r.Description).take 44 ++ "...".toList
      else replaceNewlines r.Description := rfl
  refine ⟨hdesc, fun h1 h2 => ?_, fun h => ?_⟩
  · rw [hdesc, if_pos ⟨h1, h2⟩]
    constructor
    · rw [List.length_append, List.length_take,
        show ("...".toList).length = 3 from rfl]
      omega
    · exact ⟨(replaceNewlines r.Description).take 44, rfl⟩
  · rw [hdesc, if_neg]
    rintro ⟨-, hfalse⟩
    rw [h] at hfalse
    cases hfalse

/-- Witness for C5: a 50-character description is truncated to 47
characters ending in `"..."` when `NoTrunc` is false, and kept whole
when `NoTrunc` is true. -/
theorem description_truncation_witness :
    (44 < (replaceNewlines (List.replicate 50 'a')).length
      ∧ ((false : Bool) = false)
      ∧ (formatSearchResult
          { Filter := ⟨0, OptionalBoolUndefined, OptionalBoolUndefined⟩,
            Limit := 0, NoTrunc := false, Authfile := [],
            InsecureSkipTLSVerify := OptionalBoolUndefined, ListTags := false }
          [] [] ⟨[], List.replicate 50 'a', 0, false, false⟩).Description.length = 47
      ∧ "...".toList <:+ (formatSearchResult
          { Filter := ⟨0, OptionalBoolUndefined, OptionalBoolUndefined⟩,
            Limit := 0, NoTrunc := false, Authfile := [],
            InsecureSkipTLSVerify := OptionalBoolUndefined, ListTags := false }
          [] [] ⟨[], List.replicate 50 'a', 0, false, false⟩).Description)
    ∧ ((true : Bool) = true
      ∧ (formatSearchResult
          { Filter := ⟨0, OptionalBoolUndefined, OptionalBoolUndefined⟩,
            Limit := 0, NoTrunc := true, Authfile := [],
            InsecureSkipTLSVerify := OptionalBoolUndefined, ListTags := false }
          [] [] ⟨[], List.replicate 50 'a', 0, false, false⟩).Description =
        replaceNewlines (List.replicate 50 'a')) := by
  refine ⟨⟨by decide, rfl, ?_⟩, rfl, ?_⟩
  · exact (description_truncation _ [] [] _).2.1 (by decide) rfl
  · exact (description_truncation _ [] [] _).2.2 rfl

/-! ## C6: name qualification and the Docker Hub rewrite -/

/-- **C6.** The formatted name is `registry/hit.Name`, except that when
the shortened index equals `"docker.io"` and the hit's name contains no
`/` it becomes `"docker.io/library/" ++ hit.Name`; in particular hit
`alpine` on registry `docker.io` yields `docker.io/library/alpine` and
hit `foo/bar` yields `docker.io/foo/bar`. -/
theorem docker_hub_name_rewrite (options : SearchOptions) (registry : GoString)
    (r : RawSearchResult) :
    ((formatSearchResult options registry (shortenIndex registry) r).Name =
      if shortenIndex registry = "docker.io".toList ∧ '/' ∉ r.Name then
        "docker.io/library/".toList ++ r.Name
      else registry ++ ['/'] ++ r.Name)
    ∧ (formatSearchResult options "docker.io".toList
        (shortenIndex "docker.io".toList)
        ⟨"alpine".toList, [], 0, false, false⟩).Name = "docker.io/library/alpine".toList
    ∧ (formatSearchResult options "docker.io".toList
        (shortenIndex "docker.io".toList)
        ⟨"foo/bar".toList, [], 0, false, false⟩).Name = "docker.io/foo/bar".toList := by
  refine ⟨?_, rfl, rfl⟩
  have hname : (formatSearchResult options registry (shortenIndex registry) r).Name =
      if shortenIndex registry = "docker.io".toList ∧ r.Name.contains '/' = false then
        shortenIndex registry ++ "/library/".toList ++ r.Name
      else registry ++ ['/'] ++ r.Name := rfl
  rw [hname]
  by_cases h : shortenIndex registry = "docker.io".toList ∧ '/' ∉ r.Name
  · rw [if_pos ⟨h.1, by simp [h.2]⟩, if_pos h, h.1]
    rfl
  · rw [if_neg (fun hc => h ⟨hc.1, by simpa using hc.2⟩), if_neg h]

/-! ## C7: the result filter -/

theorem foldl_append_filter_map {α β : Type} (p : α → Bool) (g : α → β) :
    ∀ (l : List α) (acc : List β),
      l.foldl (fun a r => if p r = true then a ++ [g r] else a) acc
        = acc ++ (l.filter p).map g
  | [], acc => by simp
  | x :: l, acc => by
      rw [List.foldl_cons, List.filter_cons]
      by_cases h : p x = true
      · rw [if_pos h, if_pos h, foldl_append_filter_map p g l (acc ++ [g x]),
          List.map_cons, List.append_assoc]
        rfl
      · rw [if_neg h, if_neg h, foldl_append_filter_map p g l acc]

/-- **C7.** A raw hit passes the filter exactly when all three
predicates hold — star count at least the configured minimum, the
automated flag matching the configured tri-state when set, the official
flag matching when set — and `searchImageInRegistry` keeps exactly the
retained hits that pass, formatting each in order; non-matching hits
produce no `SearchResult`. -/
theorem filter_three_predicates (f : SearchFilter) (r : RawSearchResult)
    (options : SearchOptions) (registry : GoString)
    (results : List RawSearchResult) :
    ((matchesAutomatedFilter f r && matchesOfficialFilter f r
        && matchesStarFilter f r) = true
      ↔ (f.Stars ≤ r.StarCount
          ∧ (f.IsAutomated ≠ OptionalBoolUndefined →
              (r.IsAutomated = true ↔ f.IsAutomated = OptionalBoolTrue))
          ∧ (f.IsOfficial ≠ OptionalBoolUndefined →
              (r.IsOfficial = true ↔ f.IsOfficial = OptionalBoolTrue))))
    ∧ processSearchResults options registry results =
        ((retainedHits options results).filter
          (fun hit => matchesAutomatedFilter options.Filter hit
              && matchesOfficialFilter options.Filter hit
              && matchesStarFilter options.Filter hit)).map
          (formatSearchResult options registry (shortenIndex registry)) := by
  constructor
  · cases hA : f.IsAutomated <;> cases hO : f.IsOfficial <;>
      cases hrA : r.IsAutomated <;> cases hrO : r.IsOfficial <;>
        simp [matchesAutomatedFilter, matchesOfficialFilter, matchesStarFilter,
          hA, hO, hrA, hrO,
          show (OptionalBoolFalse == OptionalBoolTrue) = false from rfl,
          show (OptionalBoolTrue == OptionalBoolTrue) = true from rfl]
  · rw [processSearchResults,
      foldl_append_filter_map
        (fun hit => matchesAutomatedFilter options.Filter hit
          && matchesOfficialFilter options.Filter hit
          && matchesStarFilter options.Filter hit)
        (formatSearchResult options registry (shortenIndex registry))
        (retainedHits options results) []]
    simp

/-- Witness for C7: a hit with 2 stars fails a 5-star minimum; an
unofficial hit fails `IsOfficial = true`; a fully matching hit passes. -/
theorem filter_three_predicates_witness :
    (¬ ((matchesAutomatedFilter ⟨5, OptionalBoolUndefined, OptionalBoolUndefined⟩
          ⟨[], [], 2, true, true⟩
        && matchesOfficialFilter ⟨5, OptionalBoolUndefined, OptionalBoolUndefined⟩
          ⟨[], [], 2, true, true⟩
        && matchesStarFilter ⟨5, OptionalBoolUndefined, OptionalBoolUndefined⟩
          ⟨[], [], 2, true, true⟩) = true))
    ∧ (¬ ((matchesAutomatedFilter ⟨0, OptionalBoolUndefined, OptionalBoolTrue⟩
          ⟨[], [], 9, false, false⟩
        && matchesOfficialFilter ⟨0, OptionalBoolUndefined, OptionalBoolTrue⟩
          ⟨[], [], 9, false, false⟩
        && matchesStarFilter ⟨0, OptionalBoolUndefined, OptionalBoolTrue⟩
          ⟨[], [], 9, false, false⟩) = true))
    ∧ ((matchesAutomatedFilter ⟨0, OptionalBoolTrue, OptionalBoolUndefined⟩
          ⟨[], [], 9, true, false⟩
        && matchesOfficialFilter ⟨0, OptionalBoolTrue, OptionalBoolUndefined⟩
          ⟨[], [], 9, true, false⟩
        && matchesStarFilter ⟨0, OptionalBoolTrue, OptionalBoolUndefined⟩
          ⟨[], [], 9, true, false⟩) = true) := by
  refine ⟨?_, ?_, ?_⟩
  · intro hpass
    have h := (filter_three_predicates ⟨5, OptionalBoolUndefined, OptionalBoolUndefined⟩
      ⟨[], [], 2, true, true⟩
      ⟨⟨0, OptionalBoolUndefined, OptionalBoolUndefined⟩, 0, false, [],
        OptionalBoolUndefined, false⟩ [] []).1.mp hpass
    have : (5:Int) ≤ 2 := h.1
    omega
  · intro hpass
    have h := (filter_three_predicates ⟨0, OptionalBoolUndefined, OptionalBoolTrue⟩
      ⟨[], [], 9, false, false⟩
      ⟨⟨0, OptionalBoolUndefined, OptionalBoolUndefined⟩, 0, false, [],
        OptionalBoolUndefined, false⟩ [] []).1.mp hpass
    have hof := (h.2.2 (by decide)).mpr rfl
    cases hof
  · exact (filter_three_predicates ⟨0, OptionalBoolTrue, OptionalBoolUndefined⟩
      ⟨[], [], 9, true, false⟩
      ⟨⟨0, OptionalBoolUndefined, OptionalBoolUndefined⟩, 0, false, [],
        OptionalBoolUndefined, false⟩ [] []).1.mpr
      ⟨by decide, fun _ => by simp, fun h => absurd rfl h⟩

/-- Witness for C4: `quay.io/alpine` adds registry `quay.io` and keeps
term `alpine`; the slash-free term `alpine` changes nothing. -/
theorem term_parser_split_witness :
    ('/' ∈ "quay.io/alpine".toList
      ∧ parseTermRegistry [] ("quay.io/alpine".toList) =
        ([("quay.io/alpine".toList).takeWhile (fun c => c ≠ '/')],
         (("quay.io/alpine".toList).dropWhile (fun c => c ≠ '/')).tail))
    ∧ ('/' ∉ "alpine".toList
      ∧ parseTermRegistry [] ("alpine".toList) = ([], "alpine".toList)) :=
  ⟨⟨by decide, (term_parser_split [] _).1 (by decide)⟩,
   ⟨by decide, (term_parser_split [] _).2 (by decide)⟩⟩

/-! ## C1: error aggregation and the optimistic success policy -/

theorem collectOutcomes_foldl (data : List searchOutputData) :
    ∀ (r : List SearchResult) (m : Option (List GoString)),
      data.foldl
        (fun acc d =>
          match d.err with
          | some e => (acc.1, some (acc.2.getD [] ++ [e]))
          | none => (acc.1 ++ d.data, acc.2))
        (r, m)
      = (r ++ successResults data,
         if failures data = [] then m else some (m.getD [] ++ failures data)) := by
  induction data with
  | nil => intro r m; simp [successResults, failures]
  | cons d rest ih =>
      intro r m
      rw [List.foldl_cons]
      cases hd : d.err with
      | some e =>
          simp only [hd]
          rw [ih]
          have hfail : failures (d :: rest) = e :: failures rest := by
            simp [failures, List.filterMap_cons, hd]
          have hsucc : successResults (d :: rest) = successResults rest := by
            simp [successResults, hd]
          rw [hfail, hsucc]
          by_cases hrest : failures rest = []
          · simp [hrest]
          · simp [hrest]
      | none =>
          simp only [hd]
          rw [ih]
          have hfail : failures (d :: rest) = failures rest := by
            simp [failures, List.filterMap_cons, hd]
          have hsucc : successResults (d :: rest) = d.data ++ successResults rest := by
            simp [successResults, hd]
          rw [hfail, hsucc, List.append_assoc]

theorem collectOutcomes_eq (data : List searchOutputData) :
    collectOutcomes data =
      (successResults data,
       if failures data = [] then none else some (failures data)) := by
  rw [collectOutcomes, collectOutcomes_foldl data [] none]
  by_cases h : failures data = [] <;> simp [h]

theorem searchAggregate_eq (data : List searchOutputData) :
    searchAggregate data =
      (successResults data,
       if successResults data = [] ∧ failures data ≠ [] then some (failures data)
       else none) := by
  rw [searchAggregate, collectOutcomes_eq]
  by_cases hs : successResults data = []
  · by_cases hf : failures data = [] <;> simp [hs, hf]
  · have : 0 < (successResults data).length := List.length_pos.mpr hs
    simp [hs, this]

theorem firstAcquireErr_none (acq : Nat → Option GoString) :
    ∀ l : List Nat, (∀ i ∈ l, acq i = none) → firstAcquireErr acq l = none := by
  intro l
  induction l with
  | nil => intro _; rfl
  | cons i rest ih =>
      intro h
      rw [firstAcquireErr, h i (List.mem_cons_self i rest)]
      exact ih (fun j hj => h j (List.mem_cons_of_mem i hj))

theorem SearchModel_no_cancel (acq : Nat → Option GoString)
    (task : Nat → searchOutputData) (n : Nat)
    (hacq : ∀ i, i < n → acq i = none) :
    SearchModel acq task n =
      (successResults ((List.range n).map task),
       if successResults ((List.range n).map task) = []
           ∧ failures ((List.range n).map task) ≠ []
       then some (SearchError.multiErr (failures ((List.range n).map task)))
       else none) := by
  rw [SearchModel,
    firstAcquireErr_none acq (List.range n)
      (fun i hi => hacq i (List.mem_range.mp hi))]
  simp only [searchAggregate_eq]
  by_cases h : successResults ((List.range n).map task) = []
      ∧ failures ((List.range n).map task) ≠ []
  · simp [h]
  · simp [if_neg h]

/-- **C1.** With no cancellation, `Search` returns a non-nil error
exactly when the final result sequence is empty and at least one
registry failed; the error then aggregates every failed registry's
failure (in slot order); a non-empty concatenated result sequence is
returned with a nil error, all per-registry errors discarded; and an
empty but error-free run returns an empty sequence and nil error. -/
theorem search_error_iff_empty_and_failed (acq : Nat → Option GoString)
    (task : Nat → searchOutputData) (n : Nat)
    (hacq : ∀ i, i < n → acq i = none) :
    ((SearchModel acq task n).2 ≠ none ↔
      ((SearchModel acq task n).1 = []
        ∧ failures ((List.range n).map task) ≠ []))
    ∧ (SearchModel acq task n).1 = successResults ((List.range n).map task)
    ∧ (SearchModel acq task n).2 =
        (if successResults ((List.range n).map task) = []
            ∧ failures ((List.range n).map task) ≠ []
         then some (SearchError.multiErr (failures ((List.range n).map task)))
         else none) := by
  rw [SearchModel_no_cancel acq task n hacq]
  refine ⟨?_, rfl, rfl⟩
  by_cases h : successResults ((List.range n).map task) = []
      ∧ failures ((List.range n).map task) ≠ []
  · simp [h]
  · simp only [if_neg h]
    constructor
    · intro hne; exact absurd rfl hne
    · intro hc
      exact absurd ⟨hc.1, hc.2⟩ h

/-- Witness for C1: two registries, both failing, no results — the
error aggregates both causes; and one succeeding registry beside one
failing — its results are returned with a nil error. -/
theorem search_error_iff_empty_and_failed_witness :
    ((SearchModel (fun _ => none)
        (fun i => if i = 0 then ⟨[], some "e0".toList⟩ else ⟨[], some "e1".toList⟩)
        2).2 ≠ none
      ↔ ((SearchModel (fun _ => none)
            (fun i => if i = 0 then ⟨[], some "e0".toList⟩ else ⟨[], some "e1".toList⟩)
            2).1 = []
          ∧ failures ((List.range 2).map
              (fun i => if i = 0 then ⟨[], some "e0".toList⟩
                else ⟨[], some "e1".toList⟩)) ≠ []))
    ∧ (SearchModel (fun _ => none)
        (fun i => if i = 0
          then ⟨[⟨[], "n".toList, [], 1, [], [], []⟩], none⟩
          else ⟨[], some "e1".toList⟩)
        2)
      = ([⟨[], "n".toList, [], 1, [], [], []⟩], none) := by
  constructor
  · exact (search_error_iff_empty_and_failed (fun _ => none) _ 2 (fun _ _ => rfl)).1
  · rw [SearchModel_no_cancel (fun _ => none) _ 2 (fun _ _ => rfl)]
    rfl

/-! ## C2: positional slot stability under any completion order -/

theorem writeSlots_getElem? (task : Nat → searchOutputData) (order : List Nat) :
    ∀ (init : List searchOutputData) (j : Nat),
      (writeSlots task order init)[j]? =
        if j ∈ order ∧ j < init.length then some (task j) else init[j]? := by
  induction order with
  | nil => intro init j; simp [writeSlots]
  | cons i rest ih =>
      intro init j
      have hstep : writeSlots task (i :: rest) init
          = writeSlots task rest (init.set i (task i)) := rfl
      rw [hstep, ih (init.set i (task i)) j, List.length_set]
      by_cases hr : j ∈ rest
      · by_cases hlen : j < init.length
        · simp [hr, hlen]
        · simp only [hr, true_and, hlen, and_true, if_neg, if_false,
            List.getElem?_set]
          have hnone : init[j]? = none := List.getElem?_eq_none (by omega)
          by_cases hij : i = j <;> simp [hij, hlen, hnone]
      · have hmem : (j ∈ i :: rest) ↔ i = j := by
          constructor
          · intro h
            rcases List.mem_cons.mp h with h1 | h2
            · exact h1.symm
            · exact absurd h2 hr
          · intro h; exact h ▸ List.mem_cons_self i rest
        rw [List.getElem?_set]
        by_cases hij : i = j
        · subst hij
          by_cases hlen : i < init.length <;>
            simp [hr, hmem, hlen, List.getElem?_eq_none (l := init)]
          omega
        · simp [hr, hmem, hij]

theorem writeSlots_perm (task : Nat → searchOutputData) (n : Nat)
    (order : List Nat) (h : order.Perm (List.range n)) :
    writeSlots task order (List.replicate n emptyOutput) = (List.range n).map task := by
  apply List.ext_getElem?
  intro j
  rw [writeSlots_getElem?, List.length_replicate]
  by_cases hj : j < n
  · have hmem : j ∈ order := h.mem_iff.mpr (List.mem_range.mpr hj)
    simp [hmem, hj, List.getElem?_map, List.getElem?_range hj]
  · have hmem : j ∉ order := fun hc => hj (List.mem_range.mp (h.mem_iff.mp hc))
    have h1 : (List.replicate n emptyOutput)[j]? = none :=
      List.getElem?_eq_none (by simpa using Nat.le_of_not_lt hj)
    have h2 : ((List.range n).map task)[j]? = none :=
      List.getElem?_eq_none (by simpa using Nat.le_of_not_lt hj)
    simp [hmem, h1, h2]

/-- **C2.** Whatever order the registry tasks complete in (any
permutation of the slot indices), the slot array ends up holding each
registry's outcome at its fixed positional slot, and the aggregated
result sequence is the concatenation of the successful per-registry
result sequences in registry-list order — not sorted by any result
attribute. -/
theorem aggregate_is_slot_order_concat (task : Nat → searchOutputData) (n : Nat)
    (order : List Nat) (h : order.Perm (List.range n)) :
    writeSlots task order (List.replicate n emptyOutput) = (List.range n).map task
    ∧ (searchAggregate (writeSlots task order (List.replicate n emptyOutput))).1
        = successResults ((List.range n).map task) := by
  have hw := writeSlots_perm task n order h
  exact ⟨hw, by rw [hw, searchAggregate_eq]⟩

/-- Witness for C2: two tasks completing in reversed order still land in
their own slots, and the aggregate concatenates slot 0's results before
slot 1's. -/
theorem aggregate_is_slot_order_concat_witness :
    writeSlots
        (fun i => if i = 0
          then ⟨[⟨[], "a".toList, [], 0, [], [], []⟩], none⟩
          else ⟨[⟨[], "b".toList, [], 0, [], [], []⟩], none⟩)
        [1, 0] (List.replicate 2 emptyOutput)
      = (List.range 2).map
          (fun i => if i = 0
            then ⟨[⟨[], "a".toList, [], 0, [], [], []⟩], none⟩
            else ⟨[⟨[], "b".toList, [], 0, [], [], []⟩], none⟩)
    ∧ (searchAggregate (writeSlots
        (fun i => if i = 0
          then ⟨[⟨[], "a".toList, [], 0, [], [], []⟩], none⟩
          else ⟨[⟨[], "b".toList, [], 0, [], [], []⟩], none⟩)
        [1, 0] (List.replicate 2 emptyOutput))).1
      = successResults ((List.range 2).map
          (fun i => if i = 0
            then ⟨[⟨[], "a".toList, [], 0, [], [], []⟩], none⟩
            else ⟨[⟨[], "b".toList, [], 0, [], [], []⟩], none⟩)) :=
  aggregate_is_slot_order_concat _ 2 [1, 0] (by decide)

/-! ## C8: cancellation during permit acquisition -/

theorem firstAcquireErr_range' (acq : Nat → Option GoString) (e : GoString)
    (k : Nat) :
    ∀ (b a : Nat), a ≤ k → k < a + b → (∀ j, j < k → acq j = none) →
      acq k = some e → firstAcquireErr acq (List.range' a b) = some e := by
  intro b
  induction b with
  | zero => intro a h1 h2 _ _; omega
  | succ m ih =>
      intro a h1 h2 hb hk
      rw [List.range'_succ, firstAcquireErr]
      by_cases ha : a = k
      · subst ha
        rw [hk]
      · have halt : a < k := lt_of_le_of_ne h1 ha
        rw [hb a halt]
        exact ih (a + 1) halt (by omega) hb hk

/-- C8 counterexample: with two registries, registry 0's task has
already produced a result when the permit acquisition for registry 1
fails with the cancellation error, yet `Search` returns the empty
sequence and the cancellation error — not the already-produced results
as success. -/
theorem cancellation_discards_results_cex :
    (SearchModel
        (fun i => if i = 1 then some "context canceled".toList else none)
        (fun i => if i = 0 then ⟨[⟨[], "r0".toList, [], 0, [], [], []⟩], none⟩
          else ⟨[], none⟩)
        2)
      = ([], some (SearchError.acquireErr "context canceled".toList))
    ∧ ((fun i => if i = 0 then ⟨[⟨[], "r0".toList, [], 0, [], [], []⟩], none⟩
          else (⟨[], none⟩ : searchOutputData)) 0).data ≠ []
    ∧ (SearchModel
        (fun i => if i = 1 then some "context canceled".toList else none)
        (fun i => if i = 0 then ⟨[⟨[], "r0".toList, [], 0, [], [], []⟩], none⟩
          else ⟨[], none⟩)
        2)
      ≠ ([⟨[], "r0".toList, [], 0, [], [], []⟩], none) :=
  ⟨rfl, by decide, by decide⟩

/-- **C8 (amended).** When the cancellation signal fires while the
dispatcher waits for a permit, `Search` returns the empty sequence and
the cancellation error unconditionally — discarding any results already
produced and launching no further registry queries (the outcome is the
same for every `task` assignment); already-produced results win over
errors only when every permit acquisition succeeds and the failures
surface as per-registry task errors, in which case the optimistic
policy returns the non-empty concatenation with a nil error. -/
theorem cancellation_error_wins (acq : Nat → Option GoString)
    (task : Nat → searchOutputData) (n k : Nat) (e : GoString)
    (hk : k < n) (hke : acq k = some e) (hbefore : ∀ j, j < k → acq j = none) :
    SearchModel acq task n = ([], some (SearchError.acquireErr e))
    ∧ ∀ (acq2 : Nat → Option GoString) (task2 : Nat → searchOutputData),
        (∀ i, i < n → acq2 i = none) →
        successResults ((List.range n).map task2) ≠ [] →
        SearchModel acq2 task2 n =
          (successResults ((List.range n).map task2), none) := by
  constructor
  · rw [SearchModel, List.range_eq_range',
      firstAcquireErr_range' acq e k n 0 (Nat.zero_le k) (by omega) hbefore hke]
  · intro acq2 task2 hacq2 hne
    rw [SearchModel_no_cancel acq2 task2 n hacq2, if_neg]
    rintro ⟨hempty, -⟩
    exact hne hempty

/-- Witness for C8 (amended): the counterexample scenario returns the
cancellation error and nothing else; and with both acquisitions
succeeding, registry 0's results come back as success beside registry
1's failure. -/
theorem cancellation_error_wins_witness :
    (SearchModel
        (fun i => if i = 1 then some "context canceled".toList else none)
        (fun i => if i = 0 then ⟨[⟨[], "w0".toList, [], 0, [], [], []⟩], none⟩
          else ⟨[], none⟩)
        2)
      = ([], some (SearchError.acquireErr "context canceled".toList))
    ∧ SearchModel (fun _ => none)
        (fun i => if i = 0 then ⟨[⟨[], "w0".toList, [], 0, [], [], []⟩], none⟩
          else ⟨[], some "e1".toList⟩)
        2
      = (successResults ((List.range 2).map
          (fun i => if i = 0 then ⟨[⟨[], "w0".toList, [], 0, [], [], []⟩], none⟩
            else ⟨[], some "e1".toList⟩)), none) := by
  have h := cancellation_error_wins
    (fun i => if i = 1 then some "context canceled".toList else none)
    (fun i => if i = 0 then ⟨[⟨[], "w0".toList, [], 0, [], [], []⟩], none⟩
      else ⟨[], none⟩)
    2 1 "context canceled".toList (by decide) rfl
    (fun j hj => by
      have hj0 : j = 0 := by omega
      subst hj0
      rfl)
  exact ⟨h.1, h.2 (fun _ => none) _ (fun _ _ => rfl) (by decide)⟩

/-! ## C9: tag-listing mode -/

/-- **C9.** In tag-listing mode: a reference parsing to a non-docker
transport fails with the descriptive error; when plain parsing fails,
the `docker://`-prefixed form is tried before failing with that same
error; a tag-retrieval failure is wrapped with "error getting
repository tags"; and on success one `SearchResult` is emitted per
retained tag carrying only the canonical reference name and the tag. -/
theorem tag_mode_behaviour (client : TagClient) (registry term : GoString)
    (options : SearchOptions) :
    (∀ ref, client.parseImageName (registry ++ ['/'] ++ term) = .ok ref →
        ref.transportName ≠ dockerTransportName →
        searchRepositoryTags client registry term options =
          .error (mustBeDockerErr term))
    ∧ (∀ e1 e2,
        client.parseImageName (registry ++ ['/'] ++ term) = .error e1 →
        client.parseImageName
          ("docker://".toList ++ (registry ++ ['/'] ++ term)) = .error e2 →
        searchRepositoryTags client registry term options =
          .error (mustBeDockerErr term))
    ∧ (∀ ref e, resolveTagReference client registry term = .ok ref →
        client.getRepositoryTags ref = .error e →
        searchRepositoryTags client registry term options =
          .error (tagRetrievalErr e))
    ∧ (∀ ref tags, resolveTagReference client registry term = .ok ref →
        client.getRepositoryTags ref = .ok tags →
        searchRepositoryTags client registry term options =
          .ok ((tags.take (tagsRetainLimit options.Limit tags.length).toNat).map
            (fun tag =>
              { Index := [], Name := ref.dockerReferenceName, Description := [],
                Stars := 0, Official := [], Automated := [], Tag := tag }))) := by
  refine ⟨fun ref hparse htrans => ?_, fun e1 e2 h1 h2 => ?_,
    fun ref e hres htags => ?_, fun ref tags hres htags => ?_⟩
  · have hparse2 : client.parseImageName (registry ++ '/' :: term) = Except.ok ref := by
      simpa using hparse
    simp [searchRepositoryTags, resolveTagReference, hparse2, htrans]
  · have h1b : client.parseImageName (registry ++ '/' :: term) = Except.error e1 := by
      simpa using h1
    have h2b : client.parseImageName
        ('d' :: 'o' :: 'c' :: 'k' :: 'e' :: 'r' :: ':' :: '/' :: '/' ::
          (registry ++ '/' :: term)) = Except.error e2 := by
      simpa using h2
    simp [searchRepositoryTags, resolveTagReference, h1b, h2b]
  · simp [searchRepositoryTags, hres, htags]
  · simp [searchRepositoryTags, hres, htags]

/-- Witness for C9: a client whose plain parse yields a non-docker
("dir") transport is rejected; one that fails the plain parse but
accepts the prefixed form lists the repository's two tags, one
`SearchResult` per tag; a failing tag retrieval is wrapped. -/
theorem tag_mode_behaviour_witness :
    searchRepositoryTags
        { parseImageName := fun _ => .ok ⟨"dir".toList, "x".toList⟩,
          getRepositoryTags := fun _ => .ok [] }
        "reg".toList "term".toList
        ⟨⟨0, OptionalBoolUndefined, OptionalBoolUndefined⟩, 0, false, [],
          OptionalBoolUndefined, false⟩
      = .error (mustBeDockerErr "term".toList)
    ∧ searchRepositoryTags
        { parseImageName := fun s =>
            if s = "docker://reg/term".toList
            then .ok ⟨"docker".toList, "reg/term".toList⟩
            else .error "invalid".toList,
          getRepositoryTags := fun _ => .ok ["t1".toList, "t2".toList] }
        "reg".toList "term".toList
        ⟨⟨0, OptionalBoolUndefined, OptionalBoolUndefined⟩, 0, false, [],
          OptionalBoolUndefined, false⟩
      = .ok [⟨[], "reg/term".toList, [], 0, [], [], "t1".toList⟩,
             ⟨[], "reg/term".toList, [], 0, [], [], "t2".toList⟩]
    ∧ searchRepositoryTags
        { parseImageName := fun _ => .ok ⟨"docker".toList, "y".toList⟩,
          getRepositoryTags := fun _ => .error "connection refused".toList }
        "reg".toList "term".toList
        ⟨⟨0, OptionalBoolUndefined, OptionalBoolUndefined⟩, 0, false, [],
          OptionalBoolUndefined, false⟩
      = .error (tagRetrievalErr "connection refused".toList) := by
  refine ⟨?_, ?_, ?_⟩
  · exact (tag_mode_behaviour _ "reg".toList "term".toList _).1
      ⟨"dir".toList, "x".toList⟩ rfl (by decide)
  · have h := (tag_mode_behaviour
      { parseImageName := fun s =>
          if s = "docker://reg/term".toList
          then .ok ⟨"docker".toList, "reg/term".toList⟩
          else .error "invalid".toList,
        getRepositoryTags := fun _ => .ok ["t1".toList, "t2".toList] }
      "reg".toList "term".toList
      ⟨⟨0, OptionalBoolUndefined, OptionalBoolUndefined⟩, 0, false, [],
        OptionalBoolUndefined, false⟩).2.2.2
      ⟨"docker".toList, "reg/term".toList⟩ ["t1".toList, "t2".toList]
      rfl rfl
    rw [h]
    rfl
  · exact (tag_mode_behaviour _ "reg".toList "term".toList _).2.2.1
      ⟨"docker".toList, "y".toList⟩ "connection refused".toList rfl rfl

/-! ## C10: the bounded-concurrency permit -/

theorem validTrace_suffix {t p : List SemOp} (ht : ValidTrace t)
    (hp : p <:+ t) : ValidTrace p := by
  induction ht with
  | nil =>
      rw [List.suffix_nil.mp hp]
      exact ValidTrace.nil
  | acquire s hs hlt ih =>
      rcases List.suffix_cons_iff.mp hp with h1 | h2
      · rw [h1]; exact ValidTrace.acquire s hs hlt
      · exact ih h2
  | release s hs hpos ih =>
      rcases List.suffix_cons_iff.mp hp with h1 | h2
      · rw [h1]; exact ValidTrace.release s hs hpos
      · exact ih h2

/-- **C10.** Along every trace the semaphore of capacity
`searchMaxParallel` can generate — each task acquiring one permit before
launch and releasing it on completion — the number of in-flight tasks at
every moment (every suffix of the trace) is at most 6, whatever the
registry-list length; and `searchMaxParallel` is 6. -/
theorem inFlight_le_of_valid {t : List SemOp} (ht : ValidTrace t) :
    inFlight t ≤ searchMaxParallel.toNat := by
  induction ht with
  | nil => simp [inFlight]
  | acquire s _ hlt _ => rw [inFlight]; omega
  | release s _ _ ih => rw [inFlight]; omega

theorem at_most_six_in_flight (t p : List SemOp) (ht : ValidTrace t)
    (hp : p <:+ t) :
    inFlight p ≤ searchMaxParallel.toNat ∧ searchMaxParallel.toNat = 6 :=
  ⟨inFlight_le_of_valid (validTrace_suffix ht hp), rfl⟩

/-- Witness for C10: the valid trace "acquire, then release" (newest
event first) never holds more than one permit, and at its intermediate
moment `[acquire]` exactly one task is in flight, within the bound. -/
theorem at_most_six_in_flight_witness :
    inFlight [SemOp.acquire] ≤ searchMaxParallel.toNat
    ∧ searchMaxParallel.toNat = 6 :=
  at_most_six_in_flight [SemOp.release, SemOp.acquire] [SemOp.acquire]
    (ValidTrace.release [SemOp.acquire]
      (ValidTrace.acquire [] ValidTrace.nil (by decide))
      (by decide))
    ⟨[SemOp.release], rfl⟩

end LibImage
